import Mathlib

/-!
Shallow embedding of `src/train_bert.py`: the class `BERTTraining`
(its loss criterion from `__init__`, lines 21-22) and the method
`train` (lines 27-69), which drives one epoch over a data loader,
accumulates loss and accuracy counters, and prints periodic and
end-of-epoch log lines.

Modelling conventions:
* Float arithmetic is modelled exactly over `ℚ`.
* The neural network (`models/bert.py`) is an external collaborator:
  `train` only consumes its two forward outputs, so a `Batch` record
  carries `NSP_output` and `MLM_output` directly, next to the data
  loader fields `is_next` and `mask_ids` it pairs them with.
* `torch.nn.CrossEntropyLoss(ignore_index=0)` is embedded by its
  documented reduction semantics: per-sample losses of samples whose
  target is not the ignore index, averaged over the number of such
  samples.  The smooth per-sample term `-log softmax(logits)[target]`
  is transcendental, so it is abstracted as a parameter
  `ce : List ℚ → ℕ → ℚ` supplied to every definition that needs it.
* Python's `/` and `%` raise `ZeroDivisionError` on a zero
  denominator; fallible computations therefore live in
  `Except Unit`, with `Except.error ()` standing for the raised
  exception.  (Lines already printed before the exception are not
  retained by the model; no property below depends on them.)
-/

namespace TrainBert

/-- One training batch as consumed by `BERTTraining.train`:
the data-loader labels `is_next` / `mask_ids` (shape `(batch)` and
`(batch, seq_len)`), and the model outputs `NSP_output` (per-example
logits over 2 classes) and `MLM_output` (per-position logits over the
vocabulary, shape `(batch, seq_len, vocab)`). -/
structure Batch where
  NSP_output : List (List ℚ)
  is_next : List ℕ
  MLM_output : List (List (List ℚ))
  mask_ids : List (List ℕ)
deriving DecidableEq

/-- The empty batch, used only as a `getD` default. -/
def Batch.empty : Batch := ⟨[], [], [], []⟩

/-- The metrics accumulated by `train` (lines 28-32): running loss sum
and the four accuracy counters. -/
structure Counters where
  avg_loss : ℚ
  total_correct_NSP : ℕ
  total_element_NSP : ℕ
  total_correct_MLM : ℕ
  total_element_MLM : ℕ
deriving DecidableEq

/-- All counters start at zero (lines 28-32). -/
def Counters.start : Counters := ⟨0, 0, 0, 0, 0⟩

/-- Helper for `argmax`: fold over the remaining entries, keeping the
index and value of the best entry seen so far; a strictly larger value
replaces the current best, so ties keep the first maximum, as
`torch.argmax` does. -/
def argmaxGo : List ℚ → ℕ → ℕ → ℚ → ℕ
  | [], _, bi, _ => bi
  | x :: xs, i, bi, bv =>
    if bv < x then argmaxGo xs (i + 1) i x else argmaxGo xs (i + 1) bi bv

/-- `torch.argmax(dim=-1)` on one logit vector: the index of the first
maximal entry (`0` on the empty list, which torch rejects). -/
def argmax : List ℚ → ℕ
  | [] => 0
  | x :: xs => argmaxGo xs 1 0 x

/-- `self.criterion = torch.nn.CrossEntropyLoss(ignore_index=0)`
(line 22) applied to a stack of logit rows and their targets: the mean
of the per-sample losses `ce` over exactly the samples whose target is
not the ignore index `0`.  When every target is `0`, `ℚ` division by
zero yields `0` where torch would produce `NaN`; the degenerate case
is tracked separately where a claim depends on it. -/
def criterion (ce : List ℚ → ℕ → ℚ) (logits : List (List ℚ)) (targets : List ℕ) : ℚ :=
  let kept := (logits.zip targets).filter (fun p => p.2 != 0)
  (kept.map (fun p => ce p.1 p.2)).sum / (kept.length : ℚ)

/-- `NSP_loss = self.criterion(NSP_output, is_next)` (line 44). -/
def NSP_loss (ce : List ℚ → ℕ → ℚ) (b : Batch) : ℚ :=
  criterion ce b.NSP_output b.is_next

/-- `MLM_loss = self.criterion(MLM_output.view(-1, MLM_output.size(-1)),
mask_ids.view(-1))` (line 45): both the logit tensor and the label
tensor are flattened over the `(batch, seq_len)` axes (`List.flatten`)
before the criterion is applied. -/
def MLM_loss (ce : List ℚ → ℕ → ℚ) (b : Batch) : ℚ :=
  criterion ce b.MLM_output.flatten b.mask_ids.flatten

/-- `loss = NSP_loss + MLM_loss` (line 47). -/
def loss (ce : List ℚ → ℕ → ℚ) (b : Batch) : ℚ :=
  NSP_loss ce b + MLM_loss ce b

/-- `correct_NSP = (NSP_output.argmax(dim=-1) == is_next).sum().item()`
(line 55). -/
def correct_NSP (b : Batch) : ℕ :=
  ((b.NSP_output.map argmax).zip b.is_next).countP (fun p => p.1 == p.2)

/-- `is_next.nelement()` (line 57): the batch size. -/
def element_NSP (b : Batch) : ℕ := b.is_next.length

/-- `MLM_pred = MLM_output.argmax(dim=-1)` (line 60): per-position
predicted token id. -/
def MLM_pred (b : Batch) : List (List ℕ) :=
  b.MLM_output.map (fun row => row.map argmax)

/-- One row of `(MLM_pred[mask] == mask_ids[mask]).sum().item()`
(lines 61-62): the number of positions whose `mask_ids` entry is not
the sentinel `0` and whose prediction equals that entry. -/
def rowCorrect (p m : List ℕ) : ℕ :=
  (p.zip m).countP (fun q => q.2 != 0 && q.1 == q.2)

/-- `correct_MLM` (line 62), summed row by row over the batch. -/
def correct_MLM (b : Batch) : ℕ :=
  (((MLM_pred b).zip b.mask_ids).map (fun pm => rowCorrect pm.1 pm.2)).sum

/-- `mask.sum().item()` for `mask = mask_ids != 0` (lines 61, 64): the
number of non-sentinel entries of `mask_ids`. -/
def element_MLM (b : Batch) : ℕ :=
  (b.mask_ids.map (fun row => (row.filter (fun x => x != 0)).length)).sum

/-- The per-batch metric update of `train` (lines 48 and 54-64). -/
def updateMetrics (ce : List ℚ → ℕ → ℚ) (b : Batch) (s : Counters) : Counters :=
  { avg_loss := s.avg_loss + loss ce b
    total_correct_NSP := s.total_correct_NSP + correct_NSP b
    total_element_NSP := s.total_element_NSP + element_NSP b
    total_correct_MLM := s.total_correct_MLM + correct_MLM b
    total_element_MLM := s.total_element_MLM + element_MLM b }

/-- Render a rational the way the embedding prints raw loss values
(stand-in for Python's float `repr` inside the f-strings). -/
def qStr (q : ℚ) : String :=
  if q.den = 1 then toString q.num else toString q.num ++ "/" ++ toString q.den

/-- Nearest integer, ties to even — the rounding used by Python's
fixed-point `.2f` format on exact values. -/
def roundHalfEven (q : ℚ) : ℤ :=
  let f : ℤ := ⌊q⌋
  let r : ℚ := q - (f : ℚ)
  if r < 1 / 2 then f
  else if 1 / 2 < (r : ℚ) then f + 1
  else if f % 2 = 0 then f else f + 1

/-- Left-pad a two-digit fragment with `0`. -/
def twoDigits (k : ℕ) : String :=
  (if k < 10 then "0" else "") ++ toString k

/-- Python's `.2f` fixed-point formatting of an exact rational. -/
def fmt2 (q : ℚ) : String :=
  let n : ℤ := roundHalfEven (q * 100)
  (if n < 0 then "-" else "") ++ toString (n.natAbs / 100) ++ "." ++ twoDigits (n.natAbs % 100)

/-- `total_correct / total_element * 100` as evaluated inside the
f-strings of lines 67 and 69; Python raises `ZeroDivisionError` when
the element counter is `0`. -/
def pct (c t : ℕ) : Except Unit ℚ :=
  if t = 0 then Except.error () else Except.ok ((c : ℚ) / (t : ℚ) * 100)

/-- Total-function value of `pct` away from the zero denominator. -/
def pctT (c t : ℕ) : ℚ := (c : ℚ) / (t : ℚ) * 100

/-- The during-epoch log line of line 67, as a total function of the
already-computed figures: running average loss `avg_loss / (i + 1)`,
the two accuracy percentages to two decimals, and the current
single-batch loss. -/
def batchLineT (i : ℕ) (s : Counters) (l : ℚ) : String :=
  "AvgLoss: " ++ qStr (s.avg_loss / ((i : ℚ) + 1)) ++
    " | AccuracyNSP: " ++ fmt2 (pctT s.total_correct_NSP s.total_element_NSP) ++
    " | AccuracyMLM: " ++ fmt2 (pctT s.total_correct_MLM s.total_element_MLM) ++
    " | Loss: " ++ qStr l

/-- Line 67 with Python's evaluation order and failure behaviour: the
f-string evaluates the average-loss division (denominator `i + 1 ≥ 1`,
never fails), then the NSP percentage, then the MLM percentage, each
of which raises on a zero element counter. -/
def batchLogLine (i : ℕ) (s : Counters) (l : ℚ) : Except Unit String :=
  match pct s.total_correct_NSP s.total_element_NSP with
  | Except.error e => Except.error e
  | Except.ok nsp =>
    match pct s.total_correct_MLM s.total_element_MLM with
    | Except.error e => Except.error e
    | Except.ok mlm =>
      Except.ok ("AvgLoss: " ++ qStr (s.avg_loss / ((i : ℚ) + 1)) ++
        " | AccuracyNSP: " ++ fmt2 nsp ++
        " | AccuracyMLM: " ++ fmt2 mlm ++
        " | Loss: " ++ qStr l)

/-- The epoch-summary line of line 69 as a total function: epoch
number, `avg_loss / len(data_loader)`, and the two final accuracy
percentages. -/
def epochLineT (epoch n : ℕ) (s : Counters) : String :=
  "Epoch " ++ toString epoch ++
    " | Total-Loss: " ++ qStr (s.avg_loss / (n : ℚ)) ++
    " | AccuracyNSP: " ++ fmt2 (pctT s.total_correct_NSP s.total_element_NSP) ++
    " | AccuracyMLM: " ++ fmt2 (pctT s.total_correct_MLM s.total_element_MLM)

/-- Line 69 with Python's evaluation order and failure behaviour: the
`avg_loss / len(data_loader)` division is evaluated first (raising
when the loader is empty), then the NSP and MLM percentages. -/
def epochLogLine (epoch n : ℕ) (s : Counters) : Except Unit String :=
  if n = 0 then Except.error () else
    match pct s.total_correct_NSP s.total_element_NSP with
    | Except.error e => Except.error e
    | Except.ok nsp =>
      match pct s.total_correct_MLM s.total_element_MLM with
      | Except.error e => Except.error e
      | Except.ok mlm =>
        Except.ok ("Epoch " ++ toString epoch ++
          " | Total-Loss: " ++ qStr (s.avg_loss / (n : ℚ)) ++
          " | AccuracyNSP: " ++ fmt2 nsp ++
          " | AccuracyMLM: " ++ fmt2 mlm)

/-- The batch loop of `train` (lines 36-67): `i` is the 0-based batch
index from `enumerate`.  Each batch first updates the metrics (the
forward pass, loss, backward pass and optimizer step mutate model
state outside this accounting model), then, when `i % log_freq == 0`,
emits the line-67 log line.  Python's `%` raises on `log_freq = 0`. -/
def trainLoop (ce : List ℚ → ℕ → ℚ) (f : ℕ) :
    ℕ → List Batch → Counters → Except Unit (Counters × List String)
  | _, [], s => Except.ok (s, [])
  | i, b :: rest, s =>
    let s' := updateMetrics ce b s
    if f = 0 then Except.error ()
    else if i % f = 0 then
      match batchLogLine i s' (loss ce b) with
      | Except.error e => Except.error e
      | Except.ok line =>
        match trainLoop ce f (i + 1) rest s' with
        | Except.error e => Except.error e
        | Except.ok (t, logs) => Except.ok (t, line :: logs)
    else trainLoop ce f (i + 1) rest s'

/-- `BERTTraining.train(epoch, data_loader)` (lines 27-69): run the
batch loop from fresh counters, then emit the epoch-summary line.  The
result collects the final counters and every emitted log line in
order. -/
def train (ce : List ℚ → ℕ → ℚ) (f epoch : ℕ) (bs : List Batch) :
    Except Unit (Counters × List String) :=
  match trainLoop ce f 0 bs Counters.start with
  | Except.error e => Except.error e
  | Except.ok (s, logs) =>
    match epochLogLine epoch bs.length s with
    | Except.error e => Except.error e
    | Except.ok summary => Except.ok (s, logs ++ [summary])

/-- Metrics after a whole list of batches, starting from zero. -/
def countersAfter (ce : List ℚ → ℕ → ℚ) (bs : List Batch) : Counters :=
  bs.foldl (fun s b => updateMetrics ce b s) Counters.start

/-- Total-function mirror of the log lines emitted by `trainLoop`. -/
def logsT (ce : List ℚ → ℕ → ℚ) (f : ℕ) :
    ℕ → List Batch → Counters → List String
  | _, [], _ => []
  | i, b :: rest, s =>
    let s' := updateMetrics ce b s
    let tail := logsT ce f (i + 1) rest s'
    if i % f = 0 then batchLineT i s' (loss ce b) :: tail else tail

/-- The line-67 log line belonging to batch index `j` of a run over
`bs`: computed from the metrics after the first `j + 1` batches and
the `j`-th batch's own loss. -/
def expectedLine (ce : List ℚ → ℕ → ℚ) (bs : List Batch) (j : ℕ) : String :=
  batchLineT j (countersAfter ce (bs.take (j + 1))) (loss ce (bs.getD j Batch.empty))

/-- All during-epoch log lines of a run over `bs` with log frequency
`f`: one line per batch index `j` with `j % f = 0`. -/
def expectedLogs (ce : List ℚ → ℕ → ℚ) (f : ℕ) (bs : List Batch) : List String :=
  ((List.range bs.length).filter (fun j => j % f == 0)).map (expectedLine ce bs)

/-- Stated from the spec's words for the ignore-index cross-entropy
rule (§4.1): over a list of (logit row, label) pairs, "any label
position equal to the sentinel 0 contributes zero loss" to the sum,
"and the total is normalized only over non-ignored positions". -/
def ceIgnoreMeanSpec (ce : List ℚ → ℕ → ℚ) (pairs : List (List ℚ × ℕ)) : ℚ :=
  ((pairs.map (fun p => if p.2 = 0 then 0 else ce p.1 p.2)).sum) /
    ((pairs.countP (fun p => p.2 != 0) : ℕ) : ℚ)

theorem pct_ok {c t : ℕ} {v : ℚ} (h : pct c t = Except.ok v) :
    t ≠ 0 ∧ v = pctT c t := by
  by_cases ht : t = 0
  · simp [pct, ht] at h
  · rw [pct, if_neg ht] at h
    injection h with h
    exact ⟨ht, h.symm⟩

theorem batchLogLine_ok {i : ℕ} {s : Counters} {l : ℚ} {str : String}
    (h : batchLogLine i s l = Except.ok str) :
    s.total_element_NSP ≠ 0 ∧ s.total_element_MLM ≠ 0 ∧ str = batchLineT i s l := by
  unfold batchLogLine at h
  cases hn : pct s.total_correct_NSP s.total_element_NSP with
  | error e => rw [hn] at h; simp at h
  | ok nsp =>
    rw [hn] at h
    cases hm : pct s.total_correct_MLM s.total_element_MLM with
    | error e => rw [hm] at h; simp at h
    | ok mlm =>
      rw [hm] at h
      injection h with h
      obtain ⟨hn1, hn2⟩ := pct_ok hn
      obtain ⟨hm1, hm2⟩ := pct_ok hm
      subst hn2; subst hm2
      exact ⟨hn1, hm1, h.symm⟩

theorem epochLogLine_ok {epoch n : ℕ} {s : Counters} {str : String}
    (h : epochLogLine epoch n s = Except.ok str) :
    n ≠ 0 ∧ s.total_element_NSP ≠ 0 ∧ s.total_element_MLM ≠ 0 ∧
      str = epochLineT epoch n s := by
  unfold epochLogLine at h
  by_cases hz : n = 0
  · rw [if_pos hz] at h; simp at h
  · rw [if_neg hz] at h
    cases hn : pct s.total_correct_NSP s.total_element_NSP with
    | error e => rw [hn] at h; simp at h
    | ok nsp =>
      rw [hn] at h
      cases hm : pct s.total_correct_MLM s.total_element_MLM with
      | error e => rw [hm] at h; simp at h
      | ok mlm =>
        rw [hm] at h
        injection h with h
        obtain ⟨hn1, hn2⟩ := pct_ok hn
        obtain ⟨hm1, hm2⟩ := pct_ok hm
        subst hn2; subst hm2
        exact ⟨hz, hn1, hm1, h.symm⟩

theorem trainLoop_ok (ce : List ℚ → ℕ → ℚ) (f : ℕ) :
    ∀ (bs : List Batch) (i : ℕ) (s t : Counters) (logs : List String),
      trainLoop ce f i bs s = Except.ok (t, logs) →
      t = bs.foldl (fun a b => updateMetrics ce b a) s ∧ logs = logsT ce f i bs s := by
  intro bs
  induction bs with
  | nil =>
    intro i s t logs h
    unfold trainLoop at h
    injection h with h
    injection h with h1 h2
    exact ⟨h1.symm, h2.symm⟩
  | cons b rest ih =>
    intro i s t logs h
    simp only [trainLoop] at h
    by_cases hf : f = 0
    · rw [if_pos hf] at h; simp at h
    · rw [if_neg hf] at h
      by_cases hi : i % f = 0
      · rw [if_pos hi] at h
        cases hb : batchLogLine i (updateMetrics ce b s) (loss ce b) with
        | error e => rw [hb] at h; simp at h
        | ok line =>
          rw [hb] at h
          cases hr : trainLoop ce f (i + 1) rest (updateMetrics ce b s) with
          | error e => rw [hr] at h; simp at h
          | ok p =>
            obtain ⟨t', logs'⟩ := p
            rw [hr] at h
            injection h with h
            injection h with h1 h2
            obtain ⟨hfold, hlogs⟩ := ih (i + 1) (updateMetrics ce b s) t' logs' hr
            constructor
            · rw [← h1, hfold]; rfl
            · rw [← h2, hlogs]
              simp only [logsT, if_pos hi]
              rw [(batchLogLine_ok hb).2.2]
      · rw [if_neg hi] at h
        obtain ⟨hfold, hlogs⟩ := ih (i + 1) (updateMetrics ce b s) t logs h
        constructor
        · rw [hfold]; rfl
        · rw [hlogs]
          simp only [logsT, if_neg hi]

theorem logsT_eq (ce : List ℚ → ℕ → ℚ) (f : ℕ) :
    ∀ (bs : List Batch) (i : ℕ) (s : Counters),
      logsT ce f i bs s =
        ((List.range bs.length).filter (fun j => (i + j) % f == 0)).map
          (fun j => batchLineT (i + j)
            ((bs.take (j + 1)).foldl (fun a b => updateMetrics ce b a) s)
            (loss ce (bs.getD j Batch.empty))) := by
  intro bs
  induction bs with
  | nil => intro i s; simp [logsT]
  | cons b rest ih =>
    intro i s
    simp only [logsT]
    rw [ih (i + 1) (updateMetrics ce b s)]
    simp only [List.length_cons, List.range_succ_eq_map, List.filter_cons,
      List.filter_map, List.map_map]
    have hp : ((fun j => (i + j) % f == 0) ∘ Nat.succ) =
        (fun j => (i + 1 + j) % f == 0) := by
      funext j
      simp only [Function.comp]
      rw [show i + Nat.succ j = i + 1 + j by omega]
    have hl : ((fun j => batchLineT (i + j)
          (((b :: rest).take (j + 1)).foldl (fun a c => updateMetrics ce c a) s)
          (loss ce ((b :: rest).getD j Batch.empty))) ∘ Nat.succ) =
        (fun j => batchLineT (i + 1 + j)
          ((rest.take (j + 1)).foldl (fun a c => updateMetrics ce c a)
            (updateMetrics ce b s))
          (loss ce (rest.getD j Batch.empty))) := by
      funext j
      simp only [Function.comp, List.take_succ_cons, List.foldl_cons, List.getD_cons_succ]
      rw [show i + Nat.succ j = i + 1 + j by omega]
    rw [hp]
    by_cases hi : i % f = 0
    · have hc : ((i + 0) % f == 0) = true := by simpa using hi
      rw [if_pos hi, if_pos hc, List.map_cons, List.map_map, hl]
      congr 1
    · have hc : ¬ (((i + 0) % f == 0) = true) := by simpa using hi
      rw [if_neg hi, if_neg hc, List.map_map, hl]

theorem train_ok {ce : List ℚ → ℕ → ℚ} {f e : ℕ} {bs : List Batch}
    {s : Counters} {logs : List String}
    (h : train ce f e bs = Except.ok (s, logs)) :
    s = countersAfter ce bs ∧
      logs = expectedLogs ce f bs ++ [epochLineT e bs.length s] ∧
      bs.length ≠ 0 ∧ s.total_element_NSP ≠ 0 ∧ s.total_element_MLM ≠ 0 := by
  unfold train at h
  split at h
  · simp at h
  · rename_i t logs' heq
    split at h
    · simp at h
    · rename_i summary heq2
      injection h with h
      injection h with h1 h2
      subst h1
      subst h2
      obtain ⟨hfold, hlogs⟩ := trainLoop_ok ce f bs 0 Counters.start t logs' heq
      obtain ⟨hn, hne, hme, hsum⟩ := epochLogLine_ok heq2
      refine ⟨by rw [hfold]; rfl, ?_, hn, hne, hme⟩
      rw [hlogs, logsT_eq, hsum]
      unfold expectedLogs expectedLine countersAfter
      simp only [Nat.zero_add]

theorem foldl_avg_loss (ce : List ℚ → ℕ → ℚ) :
    ∀ (bs : List Batch) (s : Counters),
      (bs.foldl (fun a b => updateMetrics ce b a) s).avg_loss =
        s.avg_loss + (bs.map (loss ce)).sum := by
  intro bs
  induction bs with
  | nil => intro s; simp
  | cons b rest ih =>
    intro s
    rw [List.foldl_cons, ih, List.map_cons, List.sum_cons]
    show (s.avg_loss + loss ce b) + _ = _
    ring

theorem foldl_correct_NSP (ce : List ℚ → ℕ → ℚ) :
    ∀ (bs : List Batch) (s : Counters),
      (bs.foldl (fun a b => updateMetrics ce b a) s).total_correct_NSP =
        s.total_correct_NSP + (bs.map correct_NSP).sum := by
  intro bs
  induction bs with
  | nil => intro s; simp
  | cons b rest ih =>
    intro s
    rw [List.foldl_cons, ih, List.map_cons, List.sum_cons]
    show (s.total_correct_NSP + correct_NSP b) + _ = _
    omega

theorem foldl_element_NSP (ce : List ℚ → ℕ → ℚ) :
    ∀ (bs : List Batch) (s : Counters),
      (bs.foldl (fun a b => updateMetrics ce b a) s).total_element_NSP =
        s.total_element_NSP + (bs.map element_NSP).sum := by
  intro bs
  induction bs with
  | nil => intro s; simp
  | cons b rest ih =>
    intro s
    rw [List.foldl_cons, ih, List.map_cons, List.sum_cons]
    show (s.total_element_NSP + element_NSP b) + _ = _
    omega

theorem foldl_correct_MLM (ce : List ℚ → ℕ → ℚ) :
    ∀ (bs : List Batch) (s : Counters),
      (bs.foldl (fun a b => updateMetrics ce b a) s).total_correct_MLM =
        s.total_correct_MLM + (bs.map correct_MLM).sum := by
  intro bs
  induction bs with
  | nil => intro s; simp
  | cons b rest ih =>
    intro s
    rw [List.foldl_cons, ih, List.map_cons, List.sum_cons]
    show (s.total_correct_MLM + correct_MLM b) + _ = _
    omega

theorem foldl_element_MLM (ce : List ℚ → ℕ → ℚ) :
    ∀ (bs : List Batch) (s : Counters),
      (bs.foldl (fun a b => updateMetrics ce b a) s).total_element_MLM =
        s.total_element_MLM + (bs.map element_MLM).sum := by
  intro bs
  induction bs with
  | nil => intro s; simp
  | cons b rest ih =>
    intro s
    rw [List.foldl_cons, ih, List.map_cons, List.sum_cons]
    show (s.total_element_MLM + element_MLM b) + _ = _
    omega

theorem correct_NSP_le (b : Batch) : correct_NSP b ≤ element_NSP b := by
  unfold correct_NSP element_NSP
  calc ((b.NSP_output.map argmax).zip b.is_next).countP (fun p => p.1 == p.2) ≤
      ((b.NSP_output.map argmax).zip b.is_next).length := List.countP_le_length _
    _ ≤ b.is_next.length := by rw [List.length_zip]; exact min_le_right _ _

theorem rowCorrect_le : ∀ (p m : List ℕ),
    rowCorrect p m ≤ (m.filter (fun x => x != 0)).length := by
  intro p
  induction p with
  | nil => intro m; simp [rowCorrect]
  | cons a p ih =>
    intro m
    cases m with
    | nil => simp [rowCorrect]
    | cons c m' =>
      have ihm := ih m'
      unfold rowCorrect at ihm ⊢
      rw [List.zip_cons_cons, List.countP_cons, List.filter_cons]
      split_ifs with h1 h2
      · rw [List.length_cons]; omega
      · simp at h1 h2
        omega
      · rw [List.length_cons]; omega
      · omega

theorem sumRow_le : ∀ (ps ms : List (List ℕ)),
    ((ps.zip ms).map (fun pm => rowCorrect pm.1 pm.2)).sum ≤
      (ms.map (fun r => (r.filter (fun x => x != 0)).length)).sum := by
  intro ps
  induction ps with
  | nil => intro ms; simp
  | cons p ps ih =>
    intro ms
    cases ms with
    | nil => simp
    | cons m ms' =>
      rw [List.zip_cons_cons, List.map_cons, List.sum_cons, List.map_cons, List.sum_cons]
      exact Nat.add_le_add (rowCorrect_le p m) (ih ms')

theorem correct_MLM_le (b : Batch) : correct_MLM b ≤ element_MLM b :=
  sumRow_le (MLM_pred b) b.mask_ids

theorem sum_ite_eq_sum_filter (ce : List ℚ → ℕ → ℚ) :
    ∀ (pairs : List (List ℚ × ℕ)),
      ((pairs.filter (fun p => p.2 != 0)).map (fun p => ce p.1 p.2)).sum =
        (pairs.map (fun p => if p.2 = 0 then 0 else ce p.1 p.2)).sum := by
  intro pairs
  induction pairs with
  | nil => simp
  | cons p ps ih =>
    rw [List.filter_cons, List.map_cons, List.sum_cons]
    by_cases hp : p.2 = 0
    · rw [if_neg (by simp [hp]), if_pos hp, ih]
      ring
    · rw [if_pos (by simpa using hp), List.map_cons, List.sum_cons, ih,
        if_neg hp]

theorem criterion_spec (ce : List ℚ → ℕ → ℚ) (L : List (List ℚ)) (T : List ℕ) :
    criterion ce L T = ceIgnoreMeanSpec ce (L.zip T) := by
  simp only [criterion, ceIgnoreMeanSpec]
  rw [sum_ite_eq_sum_filter, List.countP_eq_length_filter]

theorem flatten_zip {α β : Type} :
    ∀ (xs : List (List α)) (ys : List (List β)),
      xs.map List.length = ys.map List.length →
      xs.flatten.zip ys.flatten = ((xs.zip ys).map (fun p => p.1.zip p.2)).flatten := by
  intro xs
  induction xs with
  | nil =>
    intro ys h
    cases ys with
    | nil => simp
    | cons y ys' => simp at h
  | cons x xs ih =>
    intro ys h
    cases ys with
    | nil => simp at h
    | cons y ys' =>
      simp only [List.map_cons, List.cons.injEq] at h
      obtain ⟨h1, h2⟩ := h
      rw [List.flatten_cons, List.flatten_cons, List.zip_append h1, ih ys' h2]
      simp

theorem element_MLM_eq (b : Batch) :
    element_MLM b = b.mask_ids.flatten.countP (fun x => x != 0) := by
  unfold element_MLM
  rw [List.countP_flatten, List.countP_eq_length_filter']
  rfl

theorem correct_MLM_eq (b : Batch)
    (h : b.MLM_output.map List.length = b.mask_ids.map List.length) :
    correct_MLM b =
      ((MLM_pred b).flatten.zip b.mask_ids.flatten).countP
        (fun q => q.2 != 0 && q.1 == q.2) := by
  have hlen : (MLM_pred b).map List.length = b.mask_ids.map List.length := by
    unfold MLM_pred
    rw [List.map_map]
    have : (List.length ∘ fun row : List (List ℚ) => row.map argmax) = List.length := by
      funext row
      simp
    rw [this, h]
  rw [flatten_zip _ _ hlen, List.countP_flatten, List.map_map]
  unfold correct_MLM rowCorrect
  rfl

theorem filter_range_all (n : ℕ) :
    (List.range n).filter (fun j => j % 1 == 0) = List.range n := by
  apply List.filter_eq_self.mpr
  intro a _
  simp [Nat.mod_one]

theorem filter_range_singleton : ∀ (n f : ℕ), 0 < n → n < f →
    (List.range n).filter (fun j => j % f == 0) = [0] := by
  intro n
  induction n with
  | zero => intro f h; omega
  | succ n ih =>
    intro f hpos hlt
    rw [List.range_succ, List.filter_append]
    cases Nat.eq_zero_or_pos n with
    | inl h0 =>
      subst h0
      simp [Nat.zero_mod]
    | inr hpos' =>
      rw [ih f hpos' (by omega)]
      have hn : (n % f == 0) = false := by
        rw [Nat.mod_eq_of_lt (by omega)]
        simp
        omega
      simp [hn]

theorem countersAfter_avg_loss (ce : List ℚ → ℕ → ℚ) (bs : List Batch) :
    (countersAfter ce bs).avg_loss = (bs.map (loss ce)).sum := by
  unfold countersAfter
  rw [foldl_avg_loss]
  exact zero_add _

theorem countersAfter_correct_NSP (ce : List ℚ → ℕ → ℚ) (bs : List Batch) :
    (countersAfter ce bs).total_correct_NSP = (bs.map correct_NSP).sum := by
  unfold countersAfter
  rw [foldl_correct_NSP]
  exact Nat.zero_add _

theorem countersAfter_element_NSP (ce : List ℚ → ℕ → ℚ) (bs : List Batch) :
    (countersAfter ce bs).total_element_NSP = (bs.map element_NSP).sum := by
  unfold countersAfter
  rw [foldl_element_NSP]
  exact Nat.zero_add _

theorem countersAfter_correct_MLM (ce : List ℚ → ℕ → ℚ) (bs : List Batch) :
    (countersAfter ce bs).total_correct_MLM = (bs.map correct_MLM).sum := by
  unfold countersAfter
  rw [foldl_correct_MLM]
  exact Nat.zero_add _

theorem countersAfter_element_MLM (ce : List ℚ → ℕ → ℚ) (bs : List Batch) :
    (countersAfter ce bs).total_element_MLM = (bs.map element_MLM).sum := by
  unfold countersAfter
  rw [foldl_element_MLM]
  exact Nat.zero_add _

/-- A concrete per-sample loss function used by the witnesses below. -/
def ceK : List ℚ → ℕ → ℚ := fun _ t => (t : ℚ)

/-- A concrete single-example batch realising the spec's §8 example:
`mask_ids = [0,0,5,0]`, position 2 masked with true token `5`, and the
model predicting token `5` there (`argmax [0,0,0,0,0,9] = 5`). -/
def bW : Batch :=
  { NSP_output := [[0, 1]]
    is_next := [1]
    MLM_output := [[[1], [1], [0, 0, 0, 0, 0, 9], [1]]]
    mask_ids := [[0, 0, 5, 0]] }

/-- A concrete batch whose `mask_ids` are entirely the sentinel `0`,
so that `total_element_MLM` stays `0` after the first update. -/
def bZ : Batch :=
  { NSP_output := [[0, 1]]
    is_next := [1]
    MLM_output := [[[1], [1]]]
    mask_ids := [[0, 0]] }

/-- C1: the per-batch MLM accuracy update counts only positions whose
`mask_ids` entry differs from the sentinel `0`: `total_element_MLM`
grows by the number of non-sentinel positions, `total_correct_MLM`
grows by the number of non-sentinel positions whose argmax prediction
over the vocabulary logits equals the `mask_ids` entry, and a batch
whose `mask_ids` are all sentinel changes neither counter. -/
theorem c1_mlm_accuracy_masked_only (ce : List ℚ → ℕ → ℚ) (b : Batch) (s : Counters)
    (hshape : b.MLM_output.map List.length = b.mask_ids.map List.length) :
    (updateMetrics ce b s).total_element_MLM =
      s.total_element_MLM + b.mask_ids.flatten.countP (fun x => x != 0) ∧
    (updateMetrics ce b s).total_correct_MLM =
      s.total_correct_MLM +
        ((MLM_pred b).flatten.zip b.mask_ids.flatten).countP
          (fun q => q.2 != 0 && q.1 == q.2) ∧
    ((∀ x ∈ b.mask_ids.flatten, x = 0) →
      (updateMetrics ce b s).total_element_MLM = s.total_element_MLM ∧
      (updateMetrics ce b s).total_correct_MLM = s.total_correct_MLM) := by
  refine ⟨?_, ?_, ?_⟩
  · show s.total_element_MLM + element_MLM b = _
    rw [element_MLM_eq]
  · show s.total_correct_MLM + correct_MLM b = _
    rw [correct_MLM_eq b hshape]
  · intro hall
    have he : element_MLM b = 0 := by
      rw [element_MLM_eq]
      rw [List.countP_eq_zero]
      intro a ha
      simp [hall a ha]
    have hcle := correct_MLM_le b
    constructor
    · show s.total_element_MLM + element_MLM b = _
      omega
    · show s.total_correct_MLM + correct_MLM b = _
      omega

/-- Witness for C1 at the spec's §8 example batch: the update adds
exactly one element and one correct prediction. -/
theorem c1_witness :
    (bW.MLM_output.map List.length = bW.mask_ids.map List.length) ∧
    ((updateMetrics ceK bW Counters.start).total_element_MLM =
      Counters.start.total_element_MLM + bW.mask_ids.flatten.countP (fun x => x != 0)) ∧
    (updateMetrics ceK bW Counters.start).total_element_MLM = 1 ∧
    (updateMetrics ceK bW Counters.start).total_correct_MLM = 1 :=
  ⟨by decide, (c1_mlm_accuracy_masked_only ceK bW Counters.start (by decide)).1,
    by decide, by decide⟩

/-- C2: the per-batch scalar loss is the 1:1 sum of the NSP and MLM
cross-entropy terms, each following the spec's ignore-index rule
(label `0` contributes zero to the sum, the mean is over non-ignored
positions only), with the MLM term computed over the
`(batch, seq_len)`-flattened positions. -/
theorem c2_loss_sum_ignore_index (ce : List ℚ → ℕ → ℚ) (b : Batch) :
    loss ce b =
      ceIgnoreMeanSpec ce (b.NSP_output.zip b.is_next) +
        ceIgnoreMeanSpec ce (b.MLM_output.flatten.zip b.mask_ids.flatten) := by
  unfold loss NSP_loss MLM_loss
  rw [criterion_spec, criterion_spec]

/-- C3: the ignore-sentinel rule applies to the NSP term too: for
labels in `{0,1}`, the NSP loss is the sum of per-sample losses of the
label-`1` examples divided by their number, and it is invariant under
any change of the logits of label-`0` examples. -/
theorem c3_nsp_ignore_sentinel (ce : List ℚ → ℕ → ℚ) (b : Batch)
    (hlen : b.NSP_output.length = b.is_next.length)
    (hlab : ∀ l ∈ b.is_next, l = 0 ∨ l = 1) :
    NSP_loss ce b =
      (((b.NSP_output.zip b.is_next).filter (fun p => p.2 == 1)).map
        (fun p => ce p.1 p.2)).sum /
        ((b.is_next.countP (fun l => l == 1) : ℕ) : ℚ) ∧
    (∀ L : List (List ℚ),
      (L.zip b.is_next).filter (fun p => p.2 != 0) =
        (b.NSP_output.zip b.is_next).filter (fun p => p.2 != 0) →
      criterion ce L b.is_next = NSP_loss ce b) := by
  constructor
  · have hfil : (b.NSP_output.zip b.is_next).filter (fun p => p.2 != 0) =
        (b.NSP_output.zip b.is_next).filter (fun p => p.2 == 1) := by
      apply List.filter_congr
      intro p hp
      rcases hlab p.2 (List.of_mem_zip hp).2 with h0 | h1
      · rw [h0]; rfl
      · rw [h1]; rfl
    have hden : ((b.NSP_output.zip b.is_next).filter (fun p => p.2 == 1)).length =
        b.is_next.countP (fun l => l == 1) := by
      rw [← List.countP_eq_length_filter]
      have := List.countP_map (fun l : ℕ => l == 1) Prod.snd
        (b.NSP_output.zip b.is_next)
      rw [List.map_snd_zip _ _ (le_of_eq hlen.symm)] at this
      rw [this]
      rfl
    simp only [NSP_loss, criterion]
    rw [hfil, hden]
  · intro L hL
    simp only [NSP_loss, criterion]
    rw [hL]

/-- Witness for C3 at the concrete batch `bW`. -/
theorem c3_witness :
    (bW.NSP_output.length = bW.is_next.length) ∧
    (∀ l ∈ bW.is_next, l = 0 ∨ l = 1) ∧
    NSP_loss ceK bW =
      (((bW.NSP_output.zip bW.is_next).filter (fun p => p.2 == 1)).map
        (fun p => ceK p.1 p.2)).sum /
        ((bW.is_next.countP (fun l => l == 1) : ℕ) : ℚ) :=
  ⟨by decide, by decide,
    (c3_nsp_ignore_sentinel ceK bW (by decide) (by decide)).1⟩

/-- C4: the NSP accuracy update counts every example of the batch:
`total_element_NSP` grows by exactly the number of `is_next` labels,
`total_correct_NSP` grows by the number of examples whose argmax
prediction over the two NSP logits equals the label, the increment is
bounded by the batch size, and the NSP counters do not depend on
`mask_ids` at all. -/
theorem c4_nsp_accuracy_counts_all (ce : List ℚ → ℕ → ℚ) (b : Batch) (s : Counters) :
    (updateMetrics ce b s).total_element_NSP = s.total_element_NSP + b.is_next.length ∧
    (updateMetrics ce b s).total_correct_NSP =
      s.total_correct_NSP +
        ((b.NSP_output.map argmax).zip b.is_next).countP (fun p => p.1 == p.2) ∧
    correct_NSP b ≤ b.is_next.length ∧
    (∀ m : List (List ℕ),
      (updateMetrics ce { b with mask_ids := m } s).total_element_NSP =
          (updateMetrics ce b s).total_element_NSP ∧
        (updateMetrics ce { b with mask_ids := m } s).total_correct_NSP =
          (updateMetrics ce b s).total_correct_NSP) :=
  ⟨rfl, rfl, correct_NSP_le b, fun _ => ⟨rfl, rfl⟩⟩

/-- C5: on any successful epoch, the accumulated `avg_loss` after the
first `n` batches is the sum of their per-batch losses (so the value
reported at batch index `i`, `avg_loss / (i + 1)`, is the mean of the
first `i + 1` losses); the final counters do not depend on the log
frequency; and the epoch-summary line reports `avg_loss` divided by
the total number of batches of the data source. -/
theorem c5_running_average_loss (ce : List ℚ → ℕ → ℚ) (f e : ℕ) (bs : List Batch)
    (s : Counters) (logs : List String)
    (h : train ce f e bs = Except.ok (s, logs)) :
    (∀ n : ℕ, (countersAfter ce (bs.take n)).avg_loss =
      ((bs.take n).map (loss ce)).sum) ∧
    s = countersAfter ce bs ∧
    s.avg_loss = (bs.map (loss ce)).sum ∧
    logs.getLast? = some (epochLineT e bs.length s) := by
  obtain ⟨hs, hlogs, _, _, _⟩ := train_ok h
  refine ⟨fun n => countersAfter_avg_loss ce (bs.take n), hs, ?_, ?_⟩
  · rw [hs, countersAfter_avg_loss]
  · rw [hlogs, List.getLast?_concat]

/-- Witness for C5: a concrete successful one-batch epoch whose final
`avg_loss` is the sum of the per-batch losses. -/
theorem c5_witness :
    train ceK 1 0 [bW] = Except.ok (countersAfter ceK [bW],
      expectedLogs ceK 1 [bW] ++ [epochLineT 0 [bW].length (countersAfter ceK [bW])]) ∧
    (countersAfter ceK [bW]).avg_loss = ([bW].map (loss ceK)).sum :=
  ⟨by rfl,
    (c5_running_average_loss ceK 1 0 [bW] (countersAfter ceK [bW])
      (expectedLogs ceK 1 [bW] ++
        [epochLineT 0 [bW].length (countersAfter ceK [bW])]) (by rfl)).2.2.1⟩

/-- C6: on any successful epoch, the during-epoch log lines are
exactly one line per 0-based batch index `j` with `j % log_freq = 0`,
each built from the running counters after `j + 1` batches and that
batch's own loss; `log_freq = 1` logs every batch, and a `log_freq`
larger than the number of batches logs only at index 0. -/
theorem c6_log_emission_indices (ce : List ℚ → ℕ → ℚ) (f e : ℕ) (bs : List Batch)
    (s : Counters) (logs : List String)
    (h : train ce f e bs = Except.ok (s, logs)) :
    logs.dropLast =
      ((List.range bs.length).filter (fun j => j % f == 0)).map (expectedLine ce bs) ∧
    (f = 1 → logs.dropLast = (List.range bs.length).map (expectedLine ce bs)) ∧
    (bs.length < f → logs.dropLast = [expectedLine ce bs 0]) := by
  obtain ⟨hs, hlogs, hn, _, _⟩ := train_ok h
  have hd : logs.dropLast = expectedLogs ce f bs := by
    rw [hlogs, List.dropLast_concat]
  refine ⟨hd, ?_, ?_⟩
  · intro hf1
    subst hf1
    rw [hd]
    unfold expectedLogs
    rw [filter_range_all]
  · intro hlt
    rw [hd]
    unfold expectedLogs
    rw [filter_range_singleton bs.length f (Nat.pos_of_ne_zero hn) hlt]
    rfl

/-- Witness for C6: with two batches worth of frequency (`log_freq=2`)
and a single batch, only index 0 is logged. -/
theorem c6_witness :
    train ceK 2 7 [bW] = Except.ok (countersAfter ceK [bW],
      expectedLogs ceK 2 [bW] ++ [epochLineT 7 [bW].length (countersAfter ceK [bW])]) ∧
    (expectedLogs ceK 2 [bW] ++
      [epochLineT 7 [bW].length (countersAfter ceK [bW])]).dropLast =
        [expectedLine ceK [bW] 0] :=
  ⟨by rfl,
    (c6_log_emission_indices ceK 2 7 [bW] (countersAfter ceK [bW])
      (expectedLogs ceK 2 [bW] ++
        [epochLineT 7 [bW].length (countersAfter ceK [bW])]) (by rfl)).2.2
      (by decide)⟩

/-- C7: on any successful epoch, every during-epoch log line is
exactly the text
`AvgLoss: {running_avg} | AccuracyNSP: {pct:.2f} | AccuracyMLM: {pct:.2f} | Loss: {batch_loss}`
with the two percentages `correct/total*100` rendered to two decimals
and the last figure the current single-batch loss, and the final line
is exactly
`Epoch {epoch} | Total-Loss: {avg} | AccuracyNSP: {pct:.2f} | AccuracyMLM: {pct:.2f}`. -/
theorem c7_log_text_format (ce : List ℚ → ℕ → ℚ) (f e : ℕ) (bs : List Batch)
    (s : Counters) (logs : List String)
    (h : train ce f e bs = Except.ok (s, logs)) :
    (∀ line ∈ logs.dropLast, ∃ j, j < bs.length ∧ j % f = 0 ∧
      line = "AvgLoss: " ++
          qStr ((countersAfter ce (bs.take (j + 1))).avg_loss / ((j : ℚ) + 1)) ++
        " | AccuracyNSP: " ++
          fmt2 (pctT (countersAfter ce (bs.take (j + 1))).total_correct_NSP
            (countersAfter ce (bs.take (j + 1))).total_element_NSP) ++
        " | AccuracyMLM: " ++
          fmt2 (pctT (countersAfter ce (bs.take (j + 1))).total_correct_MLM
            (countersAfter ce (bs.take (j + 1))).total_element_MLM) ++
        " | Loss: " ++ qStr (loss ce (bs.getD j Batch.empty))) ∧
    logs.getLast? = some ("Epoch " ++ toString e ++
      " | Total-Loss: " ++ qStr (s.avg_loss / (bs.length : ℚ)) ++
      " | AccuracyNSP: " ++ fmt2 (pctT s.total_correct_NSP s.total_element_NSP) ++
      " | AccuracyMLM: " ++ fmt2 (pctT s.total_correct_MLM s.total_element_MLM)) := by
  obtain ⟨hs, hlogs, _, _, _⟩ := train_ok h
  constructor
  · intro line hline
    rw [hlogs, List.dropLast_concat] at hline
    unfold expectedLogs at hline
    obtain ⟨j, hj, hline⟩ := List.mem_map.mp hline
    obtain ⟨hjr, hjf⟩ := List.mem_filter.mp hj
    refine ⟨j, List.mem_range.mp hjr, by simpa using hjf, ?_⟩
    rw [← hline]
    rfl
  · rw [hlogs, List.getLast?_concat]
    rfl

/-- Witness for C7: the summary line of a concrete successful epoch
has exactly the specified format. -/
theorem c7_witness :
    train ceK 1 3 [bW] = Except.ok (countersAfter ceK [bW],
      expectedLogs ceK 1 [bW] ++ [epochLineT 3 [bW].length (countersAfter ceK [bW])]) ∧
    (expectedLogs ceK 1 [bW] ++
      [epochLineT 3 [bW].length (countersAfter ceK [bW])]).getLast? =
      some ("Epoch " ++ toString 3 ++
        " | Total-Loss: " ++
          qStr ((countersAfter ceK [bW]).avg_loss / (([bW].length : ℕ) : ℚ)) ++
        " | AccuracyNSP: " ++
          fmt2 (pctT (countersAfter ceK [bW]).total_correct_NSP
            (countersAfter ceK [bW]).total_element_NSP) ++
        " | AccuracyMLM: " ++
          fmt2 (pctT (countersAfter ceK [bW]).total_correct_MLM
            (countersAfter ceK [bW]).total_element_MLM)) :=
  ⟨by rfl,
    (c7_log_text_format ceK 1 3 [bW] (countersAfter ceK [bW])
      (expectedLogs ceK 1 [bW] ++
        [epochLineT 3 [bW].length (countersAfter ceK [bW])]) (by rfl)).2⟩

/-- C8 counterexample: a batch whose `mask_ids` are all sentinel makes
`total_element_MLM = 0` at the index-0 log point, and `train` then
stops with a division-by-zero error — it does not continue running
with corrupted output, contrary to the claim. -/
theorem c8_counterexample :
    element_MLM bZ = 0 ∧ train ceK 1 0 [bZ] = Except.error () :=
  ⟨by decide, by rfl⟩

/-- C8 (amended): a zero accuracy denominator at a log point is indeed
not detected or guarded in advance, but the unguarded division raises
(`ZeroDivisionError`, modelled as `Except.error ()`) and aborts the
epoch at that log point, rather than silently corrupting subsequent
running-average output. -/
theorem c8_zero_denominator_aborts (ce : List ℚ → ℕ → ℚ) (f e : ℕ) (b : Batch)
    (rest : List Batch) (hz : element_NSP b = 0 ∨ element_MLM b = 0) :
    train ce f e (b :: rest) = Except.error () := by
  have hsN : (updateMetrics ce b Counters.start).total_element_NSP = element_NSP b :=
    Nat.zero_add _
  have hsM : (updateMetrics ce b Counters.start).total_element_MLM = element_MLM b :=
    Nat.zero_add _
  have hline : batchLogLine 0 (updateMetrics ce b Counters.start) (loss ce b) =
      Except.error () := by
    unfold batchLogLine
    rcases hz with hz | hz
    · have hp : pct (updateMetrics ce b Counters.start).total_correct_NSP
          (updateMetrics ce b Counters.start).total_element_NSP = Except.error () := by
        rw [pct, if_pos (by rw [hsN]; exact hz)]
      rw [hp]
    · cases hp : pct (updateMetrics ce b Counters.start).total_correct_NSP
          (updateMetrics ce b Counters.start).total_element_NSP with
      | error e' => cases e'; rfl
      | ok nsp =>
        have hq : pct (updateMetrics ce b Counters.start).total_correct_MLM
            (updateMetrics ce b Counters.start).total_element_MLM = Except.error () := by
          rw [pct, if_pos (by rw [hsM]; exact hz)]
        rw [hq]
  have hloop : trainLoop ce f 0 (b :: rest) Counters.start = Except.error () := by
    simp only [trainLoop]
    by_cases hf : f = 0
    · rw [if_pos hf]
    · rw [if_neg hf, if_pos (Nat.zero_mod f)]
      rw [hline]
  unfold train
  rw [hloop]

/-- Witness for C8's amended theorem at a concrete all-sentinel batch. -/
theorem c8_witness :
    (element_NSP bZ = 0 ∨ element_MLM bZ = 0) ∧
    train ceK 3 1 [bZ] = Except.error () :=
  ⟨Or.inr (by decide), c8_zero_denominator_aborts ceK 3 1 bZ [] (Or.inr (by decide))⟩

/-- C9: accumulator invariants inside one `train` call: after every
prefix of batches each correct counter is bounded by its element
counter, all four counters are non-decreasing from one batch to the
next, and each per-batch increment is the batch's correct count,
bounded by the batch's element count. -/
theorem c9_counter_invariants (ce : List ℚ → ℕ → ℚ) (bs : List Batch) (n : ℕ) :
    (countersAfter ce (bs.take n)).total_correct_NSP ≤
      (countersAfter ce (bs.take n)).total_element_NSP ∧
    (countersAfter ce (bs.take n)).total_correct_MLM ≤
      (countersAfter ce (bs.take n)).total_element_MLM ∧
    (countersAfter ce (bs.take n)).total_correct_NSP ≤
      (countersAfter ce (bs.take (n + 1))).total_correct_NSP ∧
    (countersAfter ce (bs.take n)).total_element_NSP ≤
      (countersAfter ce (bs.take (n + 1))).total_element_NSP ∧
    (countersAfter ce (bs.take n)).total_correct_MLM ≤
      (countersAfter ce (bs.take (n + 1))).total_correct_MLM ∧
    (countersAfter ce (bs.take n)).total_element_MLM ≤
      (countersAfter ce (bs.take (n + 1))).total_element_MLM ∧
    (∀ (b : Batch) (s : Counters),
      (updateMetrics ce b s).total_correct_NSP = s.total_correct_NSP + correct_NSP b ∧
      correct_NSP b ≤ element_NSP b ∧
      (updateMetrics ce b s).total_correct_MLM = s.total_correct_MLM + correct_MLM b ∧
      correct_MLM b ≤ element_MLM b) := by
  have hmap : ∀ (g k : Batch → ℕ), (∀ x, g x ≤ k x) →
      ∀ l : List Batch, (l.map g).sum ≤ (l.map k).sum := by
    intro g k hg l
    induction l with
    | nil => simp
    | cons x l ih =>
      rw [List.map_cons, List.sum_cons, List.map_cons, List.sum_cons]
      exact Nat.add_le_add (hg x) ih
  have hpre : ∀ g : Batch → ℕ,
      ((bs.take n).map g).sum ≤ ((bs.take (n + 1)).map g).sum := by
    intro g
    rw [List.take_succ, List.map_append, List.sum_append]
    exact Nat.le_add_right _ _
  refine ⟨?_, ?_, ?_, ?_, ?_, ?_, fun b s => ⟨rfl, correct_NSP_le b, rfl, correct_MLM_le b⟩⟩
  · rw [countersAfter_correct_NSP, countersAfter_element_NSP]
    exact hmap _ _ correct_NSP_le _
  · rw [countersAfter_correct_MLM, countersAfter_element_MLM]
    exact hmap _ _ correct_MLM_le _
  · rw [countersAfter_correct_NSP, countersAfter_correct_NSP]
    exact hpre _
  · rw [countersAfter_element_NSP, countersAfter_element_NSP]
    exact hpre _
  · rw [countersAfter_correct_MLM, countersAfter_correct_MLM]
    exact hpre _
  · rw [countersAfter_element_MLM, countersAfter_element_MLM]
    exact hpre _

/-- C10: called on a data source with zero batches, the loop body
never runs (no during-epoch log line, counters untouched), and the
epoch summary's `avg_loss / len(data_loader)` divides by zero, so the
call fails with an error instead of printing a summary. -/
theorem c10_empty_loader (ce : List ℚ → ℕ → ℚ) (f e : ℕ) :
    train ce f e [] = Except.error () ∧
    trainLoop ce f 0 [] Counters.start = Except.ok (Counters.start, []) :=
  ⟨rfl, rfl⟩

end TrainBert
